import Mathlib

/-!
Shallow embedding of the Synthcorp factory-control core:
machine finite-state machine (src/core/machine.py, src/patterns/behavioral/state_pattern.py),
central control registry (src/patterns/creational/singleton_pattern.py),
production lines (src/patterns/creational/builder_pattern.py),
production strategies (src/patterns/behavioral/strategy_pattern.py),
inventory system (src/systems/inventory_system.py),
and command invoker (src/patterns/behavioral/command_pattern.py).

Python dicts keyed by ids are modelled as association lists preserving
insertion order with in-place overwrite, matching dict assignment semantics.
Observer notification (`Machine.notify_observers`) is modelled as appending
the broadcast message to a log: each broadcast reaches all attached
observers in attach order, so the log records exactly the notifications sent.
Python float literals (1.2, 0.8, ...) in the strategy formulas are modelled
as exact rationals.
-/

namespace Synthcorp

/-! ### Association-list helpers (Python dict semantics) -/

def alistGet {α : Type} : List (String × α) → String → Option α
  | [], _ => none
  | (k', v) :: t, k => if k' = k then some v else alistGet t k

def alistSet {α : Type} : List (String × α) → String → α → List (String × α)
  | [], k, v => [(k, v)]
  | (k', v') :: t, k, v => if k' = k then (k, v) :: t else (k', v') :: alistSet t k v

def alistErase {α : Type} : List (String × α) → String → List (String × α)
  | [], _ => []
  | (k', v') :: t, k => if k' = k then t else (k', v') :: alistErase t k

theorem alistGet_alistSet_self {α : Type} (l : List (String × α)) (k : String) (v : α) :
    alistGet (alistSet l k v) k = some v := by
  induction l with
  | nil => simp [alistSet, alistGet]
  | cons hd t ih =>
      obtain ⟨k', v'⟩ := hd
      by_cases h : k' = k <;> simp [alistSet, alistGet, h, ih]

theorem alistGet_alistSet_ne {α : Type} (l : List (String × α)) (k k' : String) (v : α)
    (h : k ≠ k') : alistGet (alistSet l k v) k' = alistGet l k' := by
  induction l with
  | nil => simp [alistSet, alistGet, h]
  | cons hd t ih =>
      obtain ⟨k'', v''⟩ := hd
      by_cases h2 : k'' = k <;> simp [alistSet, alistGet, h2, h, ih]

/-! ### Machine state machine (src/core/machine.py) -/

inductive MachineState where
  | IDLE
  | ACTIVE
  | MAINTENANCE
  | ERROR
deriving DecidableEq, Repr

def MachineState.pyName : MachineState → String
  | .IDLE => "IDLE"
  | .ACTIVE => "ACTIVE"
  | .MAINTENANCE => "MAINTENANCE"
  | .ERROR => "ERROR"

/-- A machine: id, name, state, performance-metric dict, and the log of
observer notifications broadcast so far (`_observers` + `notify_observers`). -/
structure Machine where
  machine_id : String
  name : String
  state : MachineState
  performance_data : List (String × String)
  notifications : List String
deriving DecidableEq, Repr

/-- `Machine.notify_observers`: every attached observer receives `msg`;
modelled as appending the broadcast message to the log. -/
def Machine.notify_observers (m : Machine) (msg : String) : Machine :=
  { m with notifications := m.notifications ++ [msg] }

/-- `Machine.set_state`: change state and notify observers. -/
def Machine.set_state (m : Machine) (s : MachineState) : Machine :=
  ({ m with state := s } : Machine).notify_observers
    ("State changed from " ++ m.state.pyName ++ " to " ++ s.pyName)

/-- `Machine.update_performance_data`: dict update plus notification. -/
def Machine.update_performance_data (m : Machine) (key value : String) : Machine :=
  ({ m with performance_data := alistSet m.performance_data key value } : Machine).notify_observers
    ("Performance data updated: " ++ key ++ "=" ++ value)

/-! ### Guarded transition handlers
(src/patterns/behavioral/state_pattern.py, dispatched by `MachineStateContext`).
Each handler returns the Python handler's boolean result together with the
machine after the request. -/

/-- `MachineStateContext.handle_start` dispatched on the current state. -/
def handle_start (m : Machine) : Bool × Machine :=
  match m.state with
  | .IDLE => (true, m.set_state .ACTIVE)
  | .ACTIVE => (false, m)
  | .MAINTENANCE => (false, m)
  | .ERROR => (false, m)

/-- `MachineStateContext.handle_stop` dispatched on the current state. -/
def handle_stop (m : Machine) : Bool × Machine :=
  match m.state with
  | .IDLE => (false, m)
  | .ACTIVE => (true, m.set_state .IDLE)
  | .MAINTENANCE => (true, m.set_state .IDLE)
  | .ERROR => (false, m)

/-- `MachineStateContext.handle_maintenance` dispatched on the current state. -/
def handle_maintenance (m : Machine) : Bool × Machine :=
  match m.state with
  | .IDLE => (true, m.set_state .MAINTENANCE)
  | .ACTIVE => (false, m)
  | .MAINTENANCE => (false, m)
  | .ERROR => (true, m.set_state .MAINTENANCE)

/-- `MachineStateContext.handle_error` dispatched on the current state. -/
def handle_error (m : Machine) (error_message : String) : Bool × Machine :=
  match m.state with
  | .IDLE => (true, m.set_state .ERROR)
  | .ACTIVE => ((m.set_state .ERROR).update_performance_data "last_error" error_message
      |> fun m' => (true, m'))
  | .MAINTENANCE => ((m.set_state .ERROR).update_performance_data "maintenance_error" error_message
      |> fun m' => (true, m'))
  | .ERROR => (true, m.update_performance_data "additional_error" error_message)

/-- Concrete idle machine used by witnesses. -/
def mIdleW : Machine :=
  { machine_id := "M1", name := "A", state := .IDLE, performance_data := [], notifications := [] }

/-- C1: the guarded requests follow the §4.1 transition table: start succeeds
only from Idle (to Active); stop succeeds from Active and Maintenance (to
Idle) and is rejected from Idle and Error; maintenance succeeds from Idle and
Error (to Maintenance) and is rejected from Active and Maintenance; error
succeeds from every state, ending in Error. A rejected request leaves the
machine (state and notification log) unchanged; two starts in a row leave the
state Active both times with the second rejected and unnotified. -/
theorem machine_transition_table (m : Machine) (msg : String) :
    ((handle_start m).1 = true ↔ m.state = .IDLE) ∧
    ((handle_start m).1 = true → (handle_start m).2.state = .ACTIVE) ∧
    ((handle_stop m).1 = true ↔ (m.state = .ACTIVE ∨ m.state = .MAINTENANCE)) ∧
    ((handle_stop m).1 = true → (handle_stop m).2.state = .IDLE) ∧
    ((handle_maintenance m).1 = true ↔ (m.state = .IDLE ∨ m.state = .ERROR)) ∧
    ((handle_maintenance m).1 = true → (handle_maintenance m).2.state = .MAINTENANCE) ∧
    ((handle_error m msg).1 = true) ∧
    ((handle_error m msg).2.state = .ERROR) ∧
    ((handle_start m).1 = false → (handle_start m).2 = m) ∧
    ((handle_stop m).1 = false → (handle_stop m).2 = m) ∧
    ((handle_maintenance m).1 = false → (handle_maintenance m).2 = m) ∧
    (m.state = .IDLE →
      (handle_start m).2.state = .ACTIVE ∧
      handle_start (handle_start m).2 = (false, (handle_start m).2) ∧
      (handle_start (handle_start m).2).2.notifications = (handle_start m).2.notifications) := by
  rcases m with ⟨id, name, st, pd, ns⟩
  cases st <;>
    simp [handle_start, handle_stop, handle_maintenance, handle_error,
      Machine.set_state, Machine.notify_observers, Machine.update_performance_data]

/-- C1 witness: the transition table instantiated on a concrete idle machine. -/
theorem machine_transition_table_witness :
    (handle_start mIdleW).2.state = .ACTIVE ∧
    handle_start (handle_start mIdleW).2 = (false, (handle_start mIdleW).2) := by
  obtain ⟨-, h2, -, -, -, -, -, -, -, -, -, h12⟩ := machine_transition_table mIdleW "err"
  exact ⟨h2 (by decide), (h12 (by decide)).2.1⟩

/-! ### Inventory system (src/systems/inventory_system.py)

`orders_placed` is a ghost counter recording the number of `_place_order`
invocations, used to state "exactly one replenishment order is placed".
The 5-second replenishment timer is a logical delay: its completion is the
explicit `receive_order` operation. `central_inventory` mirrors
`CentralControlSystem._inventory` as updated through `update_inventory`. -/

structure InvItem where
  name : String
  quantity : Int
deriving DecidableEq, Repr

structure InventorySystem where
  inventory : List (String × InvItem)
  reorder_levels : List (String × Int)
  on_order : List (String × Int)
  suppliers : List (String × String)
  central_inventory : List (String × Int)
  orders_placed : Nat
deriving DecidableEq, Repr

/-- `CentralControlSystem.update_inventory`: add the delta if the key exists,
else store it. -/
def centralUpdate (ci : List (String × Int)) (item : String) (q : Int) : List (String × Int) :=
  match alistGet ci item with
  | some cur => alistSet ci item (cur + q)
  | none => alistSet ci item q

/-- `InventorySystem.add_item` (defaults `reorder_level=10`, `supplier=None`
are passed explicitly here). -/
def InventorySystem.add_item (s : InventorySystem) (item_id nm : String) (quantity : Int)
    (reorder_level : Int) (supplier : Option String) : InventorySystem :=
  let s1 : InventorySystem :=
    { s with inventory := alistSet s.inventory item_id ⟨nm, quantity⟩,
             reorder_levels := alistSet s.reorder_levels item_id reorder_level }
  let s2 : InventorySystem :=
    match supplier with
    | some sup => { s1 with suppliers := alistSet s1.suppliers item_id sup }
    | none => s1
  { s2 with central_inventory := centralUpdate s2.central_inventory item_id quantity }

/-- `InventorySystem._place_order`: order quantity is twice the reorder
level; the pending order is recorded and the timer for `_receive_order`
started (logical delay). The `none` branch is unreachable from the checked
caller `_check_reorder_level` (Python would raise `KeyError`). -/
def InventorySystem.place_order (s : InventorySystem) (item_id : String) : InventorySystem :=
  match alistGet s.reorder_levels item_id with
  | none => s
  | some rl =>
      { s with on_order := alistSet s.on_order item_id (rl * 2),
               orders_placed := s.orders_placed + 1 }

/-- `InventorySystem._check_reorder_level`: reorder when the quantity has
dropped to the reorder level and no order is pending. The inner `none`
branch is unreachable from callers that keep `inventory` and
`reorder_levels` keyed together. -/
def InventorySystem.check_reorder_level (s : InventorySystem) (item_id : String) :
    InventorySystem :=
  match alistGet s.reorder_levels item_id with
  | none => s
  | some rl =>
      match alistGet s.inventory item_id with
      | none => s
      | some item =>
          if item.quantity ≤ rl ∧ alistGet s.on_order item_id = none then
            s.place_order item_id
          else s

/-- `InventorySystem.remove_item`: fails (returns `False`, printing the
insufficient-inventory error) when the id is unknown or the stock is short;
otherwise decrements, runs the reorder check, and mirrors the change to
central control. -/
def InventorySystem.remove_item (s : InventorySystem) (item_id : String) (quantity : Int) :
    Bool × InventorySystem :=
  match alistGet s.inventory item_id with
  | none => (false, s)
  | some item =>
      if item.quantity < quantity then (false, s)
      else
        let s1 : InventorySystem :=
          { s with inventory :=
              alistSet s.inventory item_id { item with quantity := item.quantity - quantity } }
        let s2 := s1.check_reorder_level item_id
        (true, { s2 with central_inventory := centralUpdate s2.central_inventory item_id (-quantity) })

/-- `InventorySystem._receive_order` (the replenishment timer firing):
restock, mirror to central control, and clear the pending-order flag. -/
def InventorySystem.receive_order (s : InventorySystem) (item_id : String) (quantity : Int) :
    InventorySystem :=
  match alistGet s.inventory item_id with
  | none => s
  | some item =>
      let s1 : InventorySystem :=
        { s with inventory :=
            alistSet s.inventory item_id { item with quantity := item.quantity + quantity } }
      let s2 : InventorySystem :=
        { s1 with central_inventory := centralUpdate s1.central_inventory item_id quantity }
      { s2 with on_order := alistErase s2.on_order item_id }

theorem alistGet_alistSet {α : Type} (l : List (String × α)) (k k' : String) (v : α) :
    alistGet (alistSet l k v) k' = if k = k' then some v else alistGet l k' := by
  by_cases h : k = k'
  · subst h; simp [alistGet_alistSet_self]
  · simp [h, alistGet_alistSet_ne l k k' v h]

theorem place_order_inventory (s : InventorySystem) (item_id : String) :
    (s.place_order item_id).inventory = s.inventory := by
  unfold InventorySystem.place_order
  cases alistGet s.reorder_levels item_id <;> rfl

theorem check_reorder_level_inventory (s : InventorySystem) (item_id : String) :
    (s.check_reorder_level item_id).inventory = s.inventory := by
  unfold InventorySystem.check_reorder_level
  cases alistGet s.reorder_levels item_id with
  | none => rfl
  | some rl =>
      cases alistGet s.inventory item_id with
      | none => rfl
      | some item =>
          dsimp only
          split
          · exact place_order_inventory _ _
          · rfl

/-- Invariant: every stored quantity is non-negative. -/
def nonnegInv (s : InventorySystem) : Prop :=
  ∀ id item, alistGet s.inventory id = some item → 0 ≤ item.quantity

/-- Sequences of ledger operations, for stating the non-negativity
invariant over arbitrary add/remove histories. -/
inductive InvOp where
  | add (item_id nm : String) (quantity reorder_level : Int) (supplier : Option String)
  | remove (item_id : String) (quantity : Int)

def InventorySystem.applyOp (s : InventorySystem) : InvOp → InventorySystem
  | .add item_id nm q rl sup => s.add_item item_id nm q rl sup
  | .remove item_id q => (s.remove_item item_id q).2

def applyOps (s : InventorySystem) (ops : List InvOp) : InventorySystem :=
  ops.foldl InventorySystem.applyOp s

/-- An `add` supplies a non-negative unit count (`quantity` is a count of
units per the data model); `remove` is unrestricted. -/
def InvOp.addNonneg : InvOp → Prop
  | .add _ _ q _ _ => 0 ≤ q
  | .remove _ _ => True

theorem nonnegInv_add (s : InventorySystem) (item_id nm : String) (q rl : Int)
    (sup : Option String) (hs : nonnegInv s) (hq : 0 ≤ q) :
    nonnegInv (s.add_item item_id nm q rl sup) := by
  intro id item hit
  have hinv : (s.add_item item_id nm q rl sup).inventory
      = alistSet s.inventory item_id ⟨nm, q⟩ := by
    unfold InventorySystem.add_item
    cases sup <;> rfl
  rw [hinv, alistGet_alistSet] at hit
  by_cases h : item_id = id
  · simp [h] at hit; simp [← hit, hq]
  · simp [h] at hit; exact hs id item hit

theorem nonnegInv_remove (s : InventorySystem) (item_id : String) (q : Int)
    (hs : nonnegInv s) : nonnegInv (s.remove_item item_id q).2 := by
  unfold InventorySystem.remove_item
  cases hit : alistGet s.inventory item_id with
  | none => exact hs
  | some item =>
      dsimp only
      split
      · exact hs
      · rename_i hlt
        intro id it hget
        dsimp only at hget
        rw [check_reorder_level_inventory] at hget
        dsimp only at hget
        rw [alistGet_alistSet] at hget
        by_cases h : item_id = id
        · simp [h] at hget
          have : q ≤ item.quantity := le_of_not_lt hlt
          simp [← hget]
          omega
        · simp [h] at hget; exact hs id it hget

theorem nonnegInv_applyOps (s : InventorySystem) (ops : List InvOp)
    (hs : nonnegInv s) (hops : ∀ op ∈ ops, op.addNonneg) :
    nonnegInv (applyOps s ops) := by
  induction ops generalizing s with
  | nil => exact hs
  | cons op t ih =>
      have hop := hops op (List.mem_cons_self op t)
      have ht : ∀ op ∈ t, op.addNonneg := fun o ho => hops o (List.mem_cons_of_mem op ho)
      refine ih (s.applyOp op) ?_ ht
      cases op with
      | add item_id nm q rl sup => exact nonnegInv_add s item_id nm q rl sup hs hop
      | remove item_id q => exact nonnegInv_remove s item_id q hs

/-- Concrete ledger used by witnesses: one item with 500 units in stock. -/
def invW : InventorySystem :=
  { inventory := [("a", ⟨"mat", 500⟩)], reorder_levels := [("a", 10)], on_order := [],
    suppliers := [], central_inventory := [("a", 500)], orders_placed := 0 }

/-- Concrete operation sequence used by witnesses. -/
def opsW : List InvOp := [InvOp.add "b" "B" 5 10 none, InvOp.remove "a" 100]

/-- C2: `remove_item` fails exactly when the id is unknown or the requested
quantity exceeds the stock, failure leaves the whole ledger unchanged, and
consequently no add/remove history (adds supplying non-negative unit counts)
ever drives a stored quantity negative. -/
theorem remove_item_insufficient (s : InventorySystem) (item_id : String) (q : Int)
    (ops : List InvOp) :
    ((s.remove_item item_id q).1 = false ↔
      alistGet s.inventory item_id = none ∨
      ∃ item, alistGet s.inventory item_id = some item ∧ item.quantity < q) ∧
    ((s.remove_item item_id q).1 = false → (s.remove_item item_id q).2 = s) ∧
    (nonnegInv s → (∀ op ∈ ops, op.addNonneg) → nonnegInv (applyOps s ops)) := by
  refine ⟨?_, ?_, fun hs hops => nonnegInv_applyOps s ops hs hops⟩ <;>
    · unfold InventorySystem.remove_item
      cases hit : alistGet s.inventory item_id with
      | none => simp
      | some item =>
          dsimp only
          split <;> rename_i hlt <;> simp [hlt]

/-- C2 witness: removing 1000 units from a 500-unit stock fails and leaves
the ledger unchanged; a concrete add/remove history keeps quantities
non-negative. -/
theorem remove_item_insufficient_witness :
    (invW.remove_item "a" 1000).1 = false ∧
    (invW.remove_item "a" 1000).2 = invW ∧
    nonnegInv (applyOps invW opsW) := by
  obtain ⟨h1, h2, h3⟩ := remove_item_insufficient invW "a" 1000 opsW
  have hfail : (invW.remove_item "a" 1000).1 = false :=
    h1.mpr (Or.inr ⟨⟨"mat", 500⟩, by decide, by decide⟩)
  refine ⟨hfail, h2 hfail, h3 ?_ ?_⟩
  · intro id item h
    unfold invW alistGet at h
    split at h
    · cases h; decide
    · simp [alistGet] at h
  · intro op hop
    rcases List.mem_cons.mp hop with h | h
    · subst h; show (0 : Int) ≤ 5; decide
    · rcases List.mem_cons.mp h with h2 | h2
      · subst h2; trivial
      · exact absurd h2 (List.not_mem_nil op)

theorem alistGet_eq_none_of_not_mem {α : Type} (l : List (String × α)) (k : String)
    (h : k ∉ l.map Prod.fst) : alistGet l k = none := by
  induction l with
  | nil => rfl
  | cons hd t ih =>
      obtain ⟨k', v'⟩ := hd
      simp only [List.map_cons, List.mem_cons] at h
      push_neg at h
      have hne : ¬ k' = k := fun he => h.1 he.symm
      simp [alistGet, hne, ih h.2]

theorem alistGet_alistErase_self {α : Type} (l : List (String × α)) (k : String)
    (h : (l.map Prod.fst).Nodup) : alistGet (alistErase l k) k = none := by
  induction l with
  | nil => rfl
  | cons hd t ih =>
      obtain ⟨k', v'⟩ := hd
      simp only [List.map_cons, List.nodup_cons] at h
      unfold alistErase
      by_cases he : k' = k
      · subst he
        simp only [if_pos rfl]
        exact alistGet_eq_none_of_not_mem t k' h.1
      · simp [alistGet, he, ih h.2]

/-- Concrete ledger for the C6 witness: quantity 20, reorder level 20. -/
def invC6 : InventorySystem :=
  { inventory := [("a", ⟨"mat", 20⟩)], reorder_levels := [("a", 20)], on_order := [],
    suppliers := [], central_inventory := [("a", 20)], orders_placed := 0 }

/-- C6: a successful removal that leaves the quantity at or below the
reorder level while no order is pending places exactly one replenishment
order (recording twice the reorder level as pending) and marks the item
on-order; a removal while an order is pending places no further order and
leaves the pending-order table untouched; completing a replenishment of `a`
units raises the quantity by `a` and clears the pending-order flag. -/
theorem reorder_exactly_once (s : InventorySystem) (item_id nm : String) (q q0 rl a : Int)
    (hitem : alistGet s.inventory item_id = some ⟨nm, q0⟩) :
    (alistGet s.reorder_levels item_id = some rl → ¬ q0 < q →
      (s.remove_item item_id q).1 = true ∧
      alistGet (s.remove_item item_id q).2.inventory item_id = some ⟨nm, q0 - q⟩ ∧
      (q0 - q ≤ rl → alistGet s.on_order item_id = none →
        (s.remove_item item_id q).2.orders_placed = s.orders_placed + 1 ∧
        alistGet (s.remove_item item_id q).2.on_order item_id = some (rl * 2)) ∧
      (alistGet s.on_order item_id ≠ none →
        (s.remove_item item_id q).2.orders_placed = s.orders_placed ∧
        (s.remove_item item_id q).2.on_order = s.on_order)) ∧
    ((s.receive_order item_id a).inventory = alistSet s.inventory item_id ⟨nm, q0 + a⟩ ∧
      ((s.on_order.map Prod.fst).Nodup →
        alistGet (s.receive_order item_id a).on_order item_id = none)) := by
  constructor
  · intro hrl hnot
    have hms : s.remove_item item_id q = (true,
        { inventory := alistSet s.inventory item_id ⟨nm, q0 - q⟩,
          reorder_levels := s.reorder_levels,
          on_order := if q0 - q ≤ rl ∧ alistGet s.on_order item_id = none
                      then alistSet s.on_order item_id (rl * 2) else s.on_order,
          suppliers := s.suppliers,
          central_inventory := centralUpdate s.central_inventory item_id (-q),
          orders_placed := if q0 - q ≤ rl ∧ alistGet s.on_order item_id = none
                           then s.orders_placed + 1 else s.orders_placed }) := by
      unfold InventorySystem.remove_item InventorySystem.check_reorder_level
        InventorySystem.place_order
      simp only [hitem, if_neg hnot, hrl, alistGet_alistSet_self]
      by_cases hcond : q0 - q ≤ rl ∧ alistGet s.on_order item_id = none
      · simp only [if_pos hcond]
      · simp only [if_neg hcond]
    simp only [hms]
    refine ⟨trivial, alistGet_alistSet_self _ _ _, fun hle hoo => ?_, fun hno => ?_⟩
    · rw [if_pos ⟨hle, hoo⟩, if_pos ⟨hle, hoo⟩]
      exact ⟨rfl, alistGet_alistSet_self _ _ _⟩
    · have hnc : ¬ (q0 - q ≤ rl ∧ alistGet s.on_order item_id = none) := fun h => hno h.2
      rw [if_neg hnc, if_neg hnc]
      exact ⟨rfl, rfl⟩
  · have hrecv : s.receive_order item_id a =
        (let s1 : InventorySystem :=
          { s with inventory := alistSet s.inventory item_id ⟨nm, q0 + a⟩ }
         let s2 : InventorySystem :=
          { s1 with central_inventory := centralUpdate s1.central_inventory item_id a }
         { s2 with on_order := alistErase s2.on_order item_id }) := by
      unfold InventorySystem.receive_order
      simp only [hitem]
    rw [hrecv]
    exact ⟨rfl, fun hnod => alistGet_alistErase_self _ _ hnod⟩

/-- C6 witness: from quantity 20 and reorder level 20, removing one unit
succeeds, leaves 19, places exactly one order of 40 units; a second removal
while the order is pending places no further order. -/
theorem reorder_exactly_once_witness :
    (invC6.remove_item "a" 1).1 = true ∧
    alistGet (invC6.remove_item "a" 1).2.inventory "a" = some ⟨"mat", 19⟩ ∧
    (invC6.remove_item "a" 1).2.orders_placed = 1 ∧
    alistGet (invC6.remove_item "a" 1).2.on_order "a" = some 40 ∧
    (((invC6.remove_item "a" 1).2).remove_item "a" 1).2.orders_placed = 1 := by
  obtain ⟨h1, -⟩ := reorder_exactly_once invC6 "a" "mat" 1 20 20 0 (by decide)
  obtain ⟨ha, hb, hc, -⟩ := h1 (by decide) (by decide)
  obtain ⟨hc1, hc2⟩ := hc (by decide) (by decide)
  obtain ⟨h1', -⟩ :=
    reorder_exactly_once ((invC6.remove_item "a" 1).2) "a" "mat" 1 19 20 0 (by decide)
  obtain ⟨-, -, -, h4'⟩ := h1' (by decide) (by decide)
  obtain ⟨ho1, -⟩ := h4' (by decide)
  refine ⟨ha, ?_, ?_, ?_, ?_⟩
  · rw [hb]; decide
  · rw [hc1]; decide
  · rw [hc2]; decide
  · rw [ho1]; decide

/-! ### Production strategies (src/patterns/behavioral/strategy_pattern.py)

Python float literals (1.2, 0.8) are modelled as exact rationals; order
quantities and batch sizes are unit counts. `//` on non-negative ints is
Nat division. -/

structure MassProductionStrategy where
  batch_size : Nat
deriving DecidableEq, Repr

structure MassRequirements where
  batches : Nat
  material_a : ℚ
  material_b : ℚ
  assembly_time : Nat
  packaging_time : Nat
  completion_time : Nat
deriving DecidableEq, Repr

/-- `MassProductionStrategy.calculate_resource_requirements`:
`batches = (order_quantity + batch_size - 1) // batch_size` (ceiling
division), 20% extra material_a, 0.8 material_b per unit, 4/2/8 hours per
batch for assembly/packaging/completion. -/
def MassProductionStrategy.calculate_resource_requirements (st : MassProductionStrategy)
    (order_quantity : Nat) : MassRequirements :=
  let batches := (order_quantity + st.batch_size - 1) / st.batch_size
  { batches := batches,
    material_a := (order_quantity : ℚ) * 1.2,
    material_b := (order_quantity : ℚ) * 0.8,
    assembly_time := batches * 4,
    packaging_time := batches * 2,
    completion_time := batches * 8 }

theorem add_pred_div_eq_ceil (q b : Nat) (hb : 0 < b) :
    (q + b - 1) / b = ⌈(q : ℚ) / (b : ℚ)⌉₊ := by
  have hbq : (0 : ℚ) < (b : ℚ) := by exact_mod_cast hb
  set n := (q + b - 1) / b with hn
  have hdm := Nat.div_add_mod (q + b - 1) b
  have hmod : (q + b - 1) % b < b := Nat.mod_lt _ hb
  have key1 : q ≤ n * b := by
    rw [mul_comm]
    rw [← hn] at hdm
    generalize hr : (q + b - 1) % b = r at *
    generalize hm : b * n = m at *
    omega
  have key2 : 1 ≤ n → (n - 1) * b < q := by
    intro hn1
    have hbm : b * 1 ≤ b * n := Nat.mul_le_mul_left b hn1
    rw [Nat.sub_mul, one_mul, mul_comm]
    rw [← hn] at hdm
    generalize hr : (q + b - 1) % b = r at *
    generalize hm : b * n = m at *
    omega
  symm
  apply le_antisymm
  · rw [Nat.ceil_le, div_le_iff₀ hbq]
    exact_mod_cast key1
  · rcases Nat.eq_zero_or_pos n with h0 | hpos
    · simp [h0]
    · have h := key2 hpos
      have hlt : (n - 1) < ⌈(q : ℚ) / (b : ℚ)⌉₊ := by
        rw [Nat.lt_ceil, lt_div_iff₀ hbq]
        exact_mod_cast h
      omega

/-- C3: for positive batch size, mass production computes
`batches = ⌈order_quantity / batch_size⌉`, `material_a = 1.2×qty`,
`material_b = 0.8×qty`, `assembly_time = 4×batches`,
`packaging_time = 2×batches`, `completion_time = 8×batches`; with batch
size 100 and quantity 250 this yields batches 3, materials 300/200, and
times 12/6/24. -/
theorem mass_production_requirements (b q : Nat) (hb : 0 < b) :
    ((MassProductionStrategy.mk b).calculate_resource_requirements q).batches
      = ⌈(q : ℚ) / (b : ℚ)⌉₊ ∧
    ((MassProductionStrategy.mk b).calculate_resource_requirements q).material_a
      = 1.2 * (q : ℚ) ∧
    ((MassProductionStrategy.mk b).calculate_resource_requirements q).material_b
      = 0.8 * (q : ℚ) ∧
    ((MassProductionStrategy.mk b).calculate_resource_requirements q).assembly_time
      = 4 * ((MassProductionStrategy.mk b).calculate_resource_requirements q).batches ∧
    ((MassProductionStrategy.mk b).calculate_resource_requirements q).packaging_time
      = 2 * ((MassProductionStrategy.mk b).calculate_resource_requirements q).batches ∧
    ((MassProductionStrategy.mk b).calculate_resource_requirements q).completion_time
      = 8 * ((MassProductionStrategy.mk b).calculate_resource_requirements q).batches ∧
    (MassProductionStrategy.mk 100).calculate_resource_requirements 250 =
      { batches := 3, material_a := 300, material_b := 200,
        assembly_time := 12, packaging_time := 6, completion_time := 24 } := by
  refine ⟨add_pred_div_eq_ceil q b hb, mul_comm _ _, mul_comm _ _, ?_, ?_, ?_, ?_⟩
  · simp [MassProductionStrategy.calculate_resource_requirements, Nat.mul_comm]
  · simp [MassProductionStrategy.calculate_resource_requirements, Nat.mul_comm]
  · simp [MassProductionStrategy.calculate_resource_requirements, Nat.mul_comm]
  · simp [MassProductionStrategy.calculate_resource_requirements, MassRequirements.mk.injEq]
    norm_num

/-- C3 witness: the formulas instantiated at batch size 100, quantity 250. -/
theorem mass_production_requirements_witness :
    (MassProductionStrategy.mk 100).calculate_resource_requirements 250 =
      { batches := 3, material_a := 300, material_b := 200,
        assembly_time := 12, packaging_time := 6, completion_time := 24 } :=
  (mass_production_requirements 100 250 (by decide)).2.2.2.2.2.2

/-! ### Production lines (src/patterns/creational/builder_pattern.py)

`Machine.start_operation` / `Machine.stop_operation`: every concrete robot
class (AssemblyRobot, PackagingRobot, QualityControlBot) prints a message
and sets the state directly — an unguarded transition that bypasses the
state-pattern handlers. A strategy's `execute()` only returns a status
descriptor (side-effect-free aside from logging), so starting a line leaves
no other trace of it. -/

def Machine.start_operation (m : Machine) : Machine := m.set_state .ACTIVE

def Machine.stop_operation (m : Machine) : Machine := m.set_state .IDLE

@[simp] theorem Machine.state_start_operation (m : Machine) :
    m.start_operation.state = .ACTIVE := rfl

@[simp] theorem Machine.state_stop_operation (m : Machine) :
    m.stop_operation.state = .IDLE := rfl

/-- The three strategy variants a line can carry (the variant data the
claims need; the resource formulas live on the strategy structures). -/
inductive StrategyKind where
  | mass (batch_size : Nat)
  | customBatch (customization_level : Nat)
  | onDemand (priority_level : Nat)
deriving DecidableEq, Repr

/-- `ProductionLine`: status is the Python status string, `none` standing
for Python `None` (reachable through a command undo). -/
structure ProductionLine where
  name : String
  assembly_robots : List Machine
  packaging_robots : List Machine
  quality_control_bots : List Machine
  production_strategy : Option StrategyKind
  safety_protocol : Option String
  status : Option String
deriving DecidableEq, Repr

/-- `ProductionLine.start`: `ValueError` (modelled as `Except.error`) when
there is no assembly robot or no strategy; otherwise starts every robot,
executes the strategy, sets status to running, and returns `True`. -/
def ProductionLine.start (line : ProductionLine) : Except String (Bool × ProductionLine) :=
  if line.assembly_robots = [] then .error "At least one assembly robot is required"
  else if line.production_strategy = none then .error "No production strategy assigned"
  else
    let line1 : ProductionLine :=
      { line with
        assembly_robots := line.assembly_robots.map Machine.start_operation,
        packaging_robots := line.packaging_robots.map Machine.start_operation,
        quality_control_bots := line.quality_control_bots.map Machine.start_operation }
    .ok (true, { line1 with status := some "running" })

/-- `ProductionLine.stop`: unconditionally stops every robot, sets status
idle, returns `True`. -/
def ProductionLine.stop (line : ProductionLine) : Bool × ProductionLine :=
  let line1 : ProductionLine :=
    { line with
      assembly_robots := line.assembly_robots.map Machine.stop_operation,
      packaging_robots := line.packaging_robots.map Machine.stop_operation,
      quality_control_bots := line.quality_control_bots.map Machine.stop_operation }
  (true, { line1 with status := some "idle" })

/-- `ProductionDirector.construct_production_line`: assembly robots are
required; the builder assembles the line fields (fresh line, status idle). -/
def construct_production_line (nm : String) (assembly_robots packaging_robots quality_bots :
    List Machine) (strategy : Option StrategyKind) : Except String ProductionLine :=
  if assembly_robots = [] then .error "At least one assembly robot required"
  else .ok
    { name := nm, assembly_robots := assembly_robots, packaging_robots := packaging_robots,
      quality_control_bots := quality_bots, production_strategy := strategy,
      safety_protocol := none, status := some "idle" }

/-- `ProductionDirector.construct_mass_production_line`: mass production
additionally requires packaging and quality-control robots. -/
def construct_mass_production_line (nm : String) (assembly_robots packaging_robots quality_bots :
    List Machine) (strategy : Option StrategyKind) : Except String ProductionLine :=
  if packaging_robots = [] then .error "Mass production requires packaging robots"
  else if quality_bots = [] then .error "Mass production requires quality control bots"
  else construct_production_line nm assembly_robots packaging_robots quality_bots strategy

/-- C4: constructing a mass-production line with zero packaging, zero
quality-control, or zero assembly machines fails with a validation error;
with at least one machine of each kind (and the strategy the line is built
with), construction succeeds, starting succeeds, every included machine
ends Active, and the status becomes running. -/
theorem mass_line_validation (nm : String) (asm pkg qc : List Machine) (sk : StrategyKind) :
    (pkg = [] → construct_mass_production_line nm asm pkg qc (some sk) =
      .error "Mass production requires packaging robots") ∧
    (pkg ≠ [] → qc = [] → construct_mass_production_line nm asm pkg qc (some sk) =
      .error "Mass production requires quality control bots") ∧
    (pkg ≠ [] → qc ≠ [] → asm = [] → construct_mass_production_line nm asm pkg qc (some sk) =
      .error "At least one assembly robot required") ∧
    (asm ≠ [] → pkg ≠ [] → qc ≠ [] →
      ∃ line line', construct_mass_production_line nm asm pkg qc (some sk) = .ok line ∧
        line.start = .ok (true, line') ∧
        (∀ m ∈ line'.assembly_robots ++ line'.packaging_robots ++ line'.quality_control_bots,
          m.state = .ACTIVE) ∧
        line'.status = some "running") := by
  refine ⟨?_, ?_, ?_, ?_⟩
  · intro hp
    unfold construct_mass_production_line
    rw [if_pos hp]
  · intro hp hq
    unfold construct_mass_production_line
    rw [if_neg hp, if_pos hq]
  · intro hp hq ha
    unfold construct_mass_production_line construct_production_line
    rw [if_neg hp, if_neg hq, if_pos ha]
  · intro ha hp hq
    refine ⟨⟨nm, asm, pkg, qc, some sk, none, some "idle"⟩,
            ⟨nm, asm.map Machine.start_operation, pkg.map Machine.start_operation,
             qc.map Machine.start_operation, some sk, none, some "running"⟩, ?_, ?_, ?_, rfl⟩
    · unfold construct_mass_production_line construct_production_line
      rw [if_neg hp, if_neg hq, if_neg ha]
    · unfold ProductionLine.start
      dsimp only
      rw [if_neg ha]
      simp
    · intro m hm
      simp only [List.mem_append, List.mem_map] at hm
      rcases hm with (⟨x, -, hx⟩ | ⟨x, -, hx⟩) | ⟨x, -, hx⟩ <;>
        · rw [← hx]; rfl

/-- C4 witness: an empty packaging list is rejected; one machine of each
kind builds and starts, every machine Active and the line running. -/
theorem mass_line_validation_witness :
    construct_mass_production_line "L" [mIdleW] [] [mIdleW] (some (StrategyKind.mass 10)) =
      .error "Mass production requires packaging robots" ∧
    (∃ line line', construct_mass_production_line "L" [mIdleW] [mIdleW] [mIdleW]
        (some (StrategyKind.mass 10)) = .ok line ∧
      line.start = .ok (true, line') ∧
      (∀ m ∈ line'.assembly_robots ++ line'.packaging_robots ++ line'.quality_control_bots,
        m.state = .ACTIVE) ∧
      line'.status = some "running") := by
  obtain ⟨h1, -, -, -⟩ := mass_line_validation "L" [mIdleW] [] [mIdleW] (.mass 10)
  obtain ⟨-, -, -, h4⟩ := mass_line_validation "L" [mIdleW] [mIdleW] [mIdleW] (.mass 10)
  exact ⟨h1 rfl, h4 (by simp) (by simp) (by simp)⟩

/-! ### Central control system (src/patterns/creational/singleton_pattern.py)
and safety protocols (src/systems/inventory_system.py, class SafetyProtocol)

Safety-protocol predicates (`condition_func`) are closures evaluated
against the live machine/inventory state; they are modelled as pure
functions of a `ControlEnv` snapshot, per the spec's no-side-effect
contract for predicates. `active_production` keeps only the identity of
the active order (order objects are external collaborators). -/

structure ControlEnv where
  machines : List (String × Machine)
  inventory : List (String × Int)

structure SafetyProtocol where
  name : String
  condition_func : ControlEnv → Bool
  severity : String
  violations : Nat

/-- `SafetyProtocol.check`: evaluate the predicate; on failure increment
the violation counter; return the result. -/
def SafetyProtocol.check (p : SafetyProtocol) (env : ControlEnv) : Bool × SafetyProtocol :=
  let result := p.condition_func env
  (result, if result then p else { p with violations := p.violations + 1 })

structure CentralControlSystem where
  machines : List (String × Machine)
  production_orders : List String
  active_production : Option String
  inventory : List (String × Int)
  safety_protocols : List SafetyProtocol

def ccsEmpty : CentralControlSystem :=
  { machines := [], production_orders := [], active_production := none,
    inventory := [], safety_protocols := [] }

/-- `CentralControlSystem.register_machine`: stores the machine under its
id (dict assignment — an existing entry under the same id is overwritten). -/
def CentralControlSystem.register_machine (c : CentralControlSystem) (m : Machine) :
    CentralControlSystem :=
  { c with machines := alistSet c.machines m.machine_id m }

/-- `CentralControlSystem.get_machine`. -/
def CentralControlSystem.get_machine (c : CentralControlSystem) (machine_id : String) :
    Option Machine :=
  alistGet c.machines machine_id

/-- `CentralControlSystem.emergency_shutdown`: force-stop every registered
machine (`stop_operation` then `set_state(IDLE)`, bypassing the guarded
handlers) and clear the active production reference. -/
def CentralControlSystem.emergency_shutdown (c : CentralControlSystem) : CentralControlSystem :=
  { c with machines := c.machines.map (fun p => (p.1, (p.2.stop_operation).set_state .IDLE)),
           active_production := none }

def CentralControlSystem.env (c : CentralControlSystem) : ControlEnv :=
  ⟨c.machines, c.inventory⟩

/-- The loop body of `check_safety_protocols`: check each protocol in
order, collecting the (mutated protocol, result) pairs. -/
def runChecks (env : ControlEnv) : List SafetyProtocol → List (SafetyProtocol × Bool)
  | [] => []
  | p :: ps =>
      let r := p.check env
      (r.2, r.1) :: runChecks env ps

/-- `CentralControlSystem.check_safety_protocols`: returns the ordered
(protocol, passed) list; the registry's protocol list holds the mutated
protocols. -/
def CentralControlSystem.check_safety_protocols (c : CentralControlSystem) :
    List (SafetyProtocol × Bool) × CentralControlSystem :=
  let results := runChecks c.env c.safety_protocols
  (results, { c with safety_protocols := results.map Prod.fst })

/-- First machine of the C5 counterexample. -/
def mDupA : Machine :=
  { machine_id := "M1", name := "first", state := .IDLE, performance_data := [],
    notifications := [] }

/-- Second machine of the C5 counterexample: same id, different name. -/
def mDupB : Machine :=
  { machine_id := "M1", name := "second", state := .IDLE, performance_data := [],
    notifications := [] }

/-- C5 counterexample: registering a second machine under an id that is
already registered does not fail — `register_machine` has no duplicate
check — and lookup afterwards returns the newly registered machine, not
the original one, so the existing registration is not left in place. -/
theorem register_machine_no_duplicate_check :
    ((ccsEmpty.register_machine mDupA).register_machine mDupB).get_machine "M1" = some mDupB ∧
    mDupB ≠ mDupA := by
  constructor
  · rfl
  · decide

/-- C5 amended: registering a machine always succeeds and stores it under
its id so that lookup returns it — silently overwriting any machine
already registered under that id — and leaves every other id untouched. -/
theorem register_machine_stores (c : CentralControlSystem) (m : Machine) (id' : String) :
    (c.register_machine m).get_machine m.machine_id = some m ∧
    (id' ≠ m.machine_id → (c.register_machine m).get_machine id' = c.get_machine id') := by
  constructor
  · exact alistGet_alistSet_self _ _ _
  · intro h
    exact alistGet_alistSet_ne _ _ _ _ (Ne.symm h)

/-- A machine under an unrelated id, for the C5 amended witness. -/
def mOtherW : Machine :=
  { machine_id := "M2", name := "other", state := .IDLE, performance_data := [],
    notifications := [] }

/-- C5 amended witness: a fresh registration is retrievable and does not
disturb an unrelated id. -/
theorem register_machine_stores_witness :
    (ccsEmpty.register_machine mDupA).get_machine "M1" = some mDupA ∧
    ((ccsEmpty.register_machine mDupB).register_machine mOtherW).get_machine "M1" = some mDupB := by
  refine ⟨(register_machine_stores ccsEmpty mDupA "x").1, ?_⟩
  have h := (register_machine_stores (ccsEmpty.register_machine mDupB) mOtherW "M1").2
    (by decide)
  rw [h]
  exact (register_machine_stores ccsEmpty mDupB "x").1

/-- The per-machine force-stop performed by `emergency_shutdown`:
`machine.stop_operation()` followed by `machine.set_state(MachineState.IDLE)`. -/
def forceIdle (m : Machine) : Machine := (m.stop_operation).set_state .IDLE

theorem alistGet_map_forceIdle (l : List (String × Machine)) (k : String) :
    alistGet (l.map (fun p => (p.1, forceIdle p.2))) k = (alistGet l k).map forceIdle := by
  induction l with
  | nil => rfl
  | cons hd t ih =>
      obtain ⟨k', v'⟩ := hd
      by_cases h : k' = k <;> simp [alistGet, h, ih]

/-- A machine stuck in Error, for the C7 witness. -/
def mErrW : Machine :=
  { machine_id := "M3", name := "E", state := .ERROR, performance_data := [],
    notifications := [] }

/-- A registry holding one machine stuck in Error, for the C7 witness. -/
def ccsErrW : CentralControlSystem :=
  { ccsEmpty with machines := [("M3", mErrW)], active_production := some "ORD1" }

/-- A line whose only robot is in Error, for the C7 witness. -/
def lineErrW : ProductionLine :=
  { name := "L", assembly_robots := [mErrW], packaging_robots := [],
    quality_control_bots := [], production_strategy := some (.mass 10),
    safety_protocol := none, status := some "running" }

/-- C7: emergency shutdown is total and leaves every registered machine
Idle (force transitions, not the guarded table) and clears the active
production reference, whatever the starting states; line stop is total,
returns `True`, sets every assigned machine Idle and the status idle. -/
theorem emergency_shutdown_unconditional (c : CentralControlSystem) (line : ProductionLine) :
    (∀ id m, (c.emergency_shutdown).get_machine id = some m → m.state = .IDLE) ∧
    (c.emergency_shutdown).active_production = none ∧
    (line.stop).1 = true ∧
    (line.stop).2.status = some "idle" ∧
    (∀ m ∈ (line.stop).2.assembly_robots ++ (line.stop).2.packaging_robots ++
        (line.stop).2.quality_control_bots, m.state = .IDLE) := by
  refine ⟨?_, rfl, rfl, rfl, ?_⟩
  · intro id m hm
    unfold CentralControlSystem.emergency_shutdown CentralControlSystem.get_machine at hm
    dsimp only at hm
    rw [show (fun p : String × Machine => (p.1, (p.2.stop_operation).set_state .IDLE))
        = (fun p : String × Machine => (p.1, forceIdle p.2)) from rfl,
      alistGet_map_forceIdle] at hm
    rcases hg : alistGet c.machines id with - | m0
    · rw [hg] at hm; cases hm
    · rw [hg] at hm
      rw [Option.map_some'] at hm
      have hm' := Option.some.inj hm
      rw [← hm']
      rfl
  · intro m hm
    simp only [ProductionLine.stop, List.mem_append, List.mem_map] at hm
    rcases hm with (⟨x, -, hx⟩ | ⟨x, -, hx⟩) | ⟨x, -, hx⟩ <;>
      · rw [← hx]; rfl

/-- C7 witness: shutting down a registry whose machine is in Error leaves
it Idle and clears the active production; stopping a line whose robot is
in Error returns `True` and idles it. -/
theorem emergency_shutdown_unconditional_witness :
    ((ccsErrW.emergency_shutdown).get_machine "M3").map Machine.state = some .IDLE ∧
    (ccsErrW.emergency_shutdown).active_production = none ∧
    (lineErrW.stop).1 = true ∧
    (lineErrW.stop).2.status = some "idle" ∧
    ((lineErrW.stop).2.assembly_robots.map Machine.state) = [.IDLE] := by
  obtain ⟨h1, h2, h3, h4, h5⟩ := emergency_shutdown_unconditional ccsErrW lineErrW
  refine ⟨?_, h2, h3, h4, ?_⟩
  · have hg : (ccsErrW.emergency_shutdown).get_machine "M3" = some (forceIdle mErrW) := rfl
    rw [hg, Option.map_some', h1 "M3" (forceIdle mErrW) hg]
  · have hmem : (mErrW.stop_operation) ∈ (lineErrW.stop).2.assembly_robots ++
        (lineErrW.stop).2.packaging_robots ++ (lineErrW.stop).2.quality_control_bots := by
      apply List.mem_append.mpr
      refine Or.inl (List.mem_append.mpr (Or.inl ?_))
      show mErrW.stop_operation ∈ [mErrW.stop_operation]
      exact List.mem_singleton.mpr rfl
    have hstate := h5 (mErrW.stop_operation) hmem
    show [(mErrW.stop_operation).state] = [MachineState.IDLE]
    rw [hstate]

theorem runChecks_eq_map (env : ControlEnv) (ps : List SafetyProtocol) :
    runChecks env ps = ps.map (fun p =>
      (if p.condition_func env then p else { p with violations := p.violations + 1 },
       p.condition_func env)) := by
  induction ps with
  | nil => rfl
  | cons p t ih => simp [runChecks, SafetyProtocol.check, ih]

/-- A protocol whose predicate always passes, for the C9 witness. -/
def pPassW : SafetyProtocol :=
  { name := "p1", condition_func := fun _ => true, severity := "HIGH", violations := 0 }

/-- A protocol whose predicate always fails, for the C9 witness. -/
def pFailW : SafetyProtocol :=
  { name := "p2", condition_func := fun _ => false, severity := "LOW", violations := 3 }

/-- A registry carrying one passing and one failing protocol. -/
def ccsC9 : CentralControlSystem := { ccsEmpty with safety_protocols := [pPassW, pFailW] }

/-- C9: `check_safety_protocols` returns, in registration order, each
protocol paired with its predicate's verdict on the current snapshot; a
failing check increments exactly that protocol's violation counter by one
and a passing check leaves it unchanged; machines and inventory are
untouched. -/
theorem check_safety_protocols_spec (c : CentralControlSystem) (i : Nat) :
    (c.check_safety_protocols).1 =
      c.safety_protocols.map (fun p =>
        (if p.condition_func c.env then p else { p with violations := p.violations + 1 },
         p.condition_func c.env)) ∧
    (c.check_safety_protocols).2.machines = c.machines ∧
    (c.check_safety_protocols).2.inventory = c.inventory ∧
    ((c.check_safety_protocols).2.safety_protocols[i]?) =
      (c.safety_protocols[i]?).map (fun p =>
        if p.condition_func c.env then p else { p with violations := p.violations + 1 }) ∧
    ((c.check_safety_protocols).2.safety_protocols[i]?).map SafetyProtocol.violations =
      (c.safety_protocols[i]?).map (fun p =>
        p.violations + (if p.condition_func c.env then 0 else 1)) := by
  have hr := runChecks_eq_map c.env c.safety_protocols
  have hlist : (c.check_safety_protocols).2.safety_protocols =
      c.safety_protocols.map (fun p =>
        if p.condition_func c.env then p else { p with violations := p.violations + 1 }) := by
    show (runChecks c.env c.safety_protocols).map Prod.fst = _
    rw [hr, List.map_map]
    rfl
  refine ⟨hr, rfl, rfl, ?_, ?_⟩
  · rw [hlist, List.getElem?_map]
  · rw [hlist, List.getElem?_map]
    rcases h : c.safety_protocols[i]? with - | p
    · rfl
    · simp only [Option.map_some']
      by_cases hc : p.condition_func c.env <;> simp [hc]

/-- C9 witness: on a registry with one passing and one failing protocol the
verdict list is `[true, false]`, the failing protocol's counter moves from
3 to 4, the passing one stays at 0, and machines/inventory are unchanged. -/
theorem check_safety_protocols_spec_witness :
    ((ccsC9.check_safety_protocols).1).map Prod.snd = [true, false] ∧
    ((ccsC9.check_safety_protocols).2.safety_protocols[0]?).map SafetyProtocol.violations =
      some 0 ∧
    ((ccsC9.check_safety_protocols).2.safety_protocols[1]?).map SafetyProtocol.violations =
      some 4 ∧
    (ccsC9.check_safety_protocols).2.machines = ccsC9.machines ∧
    (ccsC9.check_safety_protocols).2.inventory = ccsC9.inventory := by
  obtain ⟨h1, h2, h3, -, h5⟩ := check_safety_protocols_spec ccsC9 1
  obtain ⟨-, -, -, -, h5'⟩ := check_safety_protocols_spec ccsC9 0
  refine ⟨?_, ?_, ?_, h2, h3⟩
  · rw [h1]; rfl
  · rw [h5']; rfl
  · rw [h5]; rfl

/-! ### Command pattern (src/patterns/behavioral/command_pattern.py)

Start/stop commands reference the production line and the change-strategy
command references the strategy context; `World` groups these shared
referents. The invoker's `_commands` list holds each named command
instance; `_history` entries are positions into that list, mirroring
Python's aliasing of the same command object between `_commands` and
`_history` (history is kept most-recent-first: Python appends and pops at
the end). Python exceptions raised by `ProductionLine.start` propagate as
`Except.error`; mutations performed before the raise (the snapshot write
to `previous_status`) persist. -/

structure StrategyContext where
  strategy : Option StrategyKind
deriving DecidableEq, Repr

structure World where
  line : ProductionLine
  context : StrategyContext
deriving DecidableEq, Repr

inductive CmdKind where
  | startProduction
  | stopProduction
  | changeStrategy (new_strategy : StrategyKind)
deriving DecidableEq, Repr

/-- A command object: its kind plus the snapshot fields
(`previous_status`, `previous_strategy`), both `None` until first use. -/
structure CmdInstance where
  kind : CmdKind
  previous_status : Option String
  previous_strategy : Option StrategyKind
deriving DecidableEq, Repr

/-- `ProductionCommand.execute` for each command class: snapshot, run the
forward action, report its result. The updated instance is returned even
when the forward action raises, since the snapshot write precedes it. -/
def CmdInstance.execute (c : CmdInstance) (w : World) :
    CmdInstance × Except String (Bool × World) :=
  match c.kind with
  | .startProduction =>
      let inst : CmdInstance := { c with previous_status := w.line.status }
      match w.line.start with
      | .ok r => (inst, .ok (r.1, { w with line := r.2 }))
      | .error e => (inst, .error e)
  | .stopProduction =>
      let inst : CmdInstance := { c with previous_status := w.line.status }
      (inst, .ok ((w.line.stop).1, { w with line := (w.line.stop).2 }))
  | .changeStrategy ns =>
      let inst : CmdInstance := { c with previous_strategy := w.context.strategy }
      (inst, .ok (true, { w with context := ⟨some ns⟩ }))

/-- `ProductionCommand.undo` for each command class: run the inverse, then
restore the snapshot; returns `True` (the stop-command undo can raise
through `ProductionLine.start`). -/
def CmdInstance.undo (c : CmdInstance) (w : World) : Except String (Bool × World) :=
  match c.kind with
  | .startProduction =>
      .ok (true, { w with line := { (w.line.stop).2 with status := c.previous_status } })
  | .stopProduction =>
      match w.line.start with
      | .ok r => .ok (true, { w with line := { r.2 with status := c.previous_status } })
      | .error e => .error e
  | .changeStrategy _ =>
      .ok (true, { w with context := ⟨c.previous_strategy⟩ })

/-- The lookup loop of `execute_command`: first registered entry whose name
matches, with its position. -/
def findCommand : List (String × CmdInstance) → String → Option (Nat × CmdInstance)
  | [], _ => none
  | (n, c) :: t, nm =>
      if n = nm then some (0, c)
      else (findCommand t nm).map (fun r => (r.1 + 1, r.2))

structure CommandInvoker where
  commands : List (String × CmdInstance)
  history : List Nat
deriving DecidableEq, Repr

/-- `CommandInvoker.execute_command`: run the first command registered
under the name; append it to history only when the forward action reports
success; an unknown name returns `False` and changes nothing. -/
def CommandInvoker.execute_command (inv : CommandInvoker) (w : World) (nm : String) :
    Except String Bool × CommandInvoker × World :=
  match findCommand inv.commands nm with
  | none => (.ok false, inv, w)
  | some (i, inst) =>
      let r := inst.execute w
      let inv1 : CommandInvoker := { inv with commands := inv.commands.set i (nm, r.1) }
      match r.2 with
      | .error e => (.error e, inv1, w)
      | .ok br =>
          (.ok br.1,
           { inv1 with history := if br.1 then i :: inv1.history else inv1.history }, br.2)

/-- `CommandInvoker.undo_last_command`: pop the most recent history entry
and invoke its inverse; empty history returns `False`. The inner `none`
branch is unreachable (history always indexes `commands`). -/
def CommandInvoker.undo_last_command (inv : CommandInvoker) (w : World) :
    Except String Bool × CommandInvoker × World :=
  match inv.history with
  | [] => (.ok false, inv, w)
  | i :: rest =>
      match inv.commands[i]? with
      | none => (.ok false, { inv with history := rest }, w)
      | some p =>
          match p.2.undo w with
          | .error e => (.error e, { inv with history := rest }, w)
          | .ok br => (.ok br.1, { inv with history := rest }, br.2)

/-- An invoker holding a single start-production command. -/
def startOnlyInvoker (nm : String) : CommandInvoker :=
  ⟨[(nm, ⟨.startProduction, none, none⟩)], []⟩

theorem execute_command_found (inv : CommandInvoker) (w : World) (nm : String) (i : Nat)
    (inst : CmdInstance) (hf : findCommand inv.commands nm = some (i, inst)) :
    inv.execute_command w nm =
      (match (inst.execute w).2 with
       | .ok br => (.ok br.1,
           ⟨inv.commands.set i (nm, (inst.execute w).1),
            if br.1 then i :: inv.history else inv.history⟩, br.2)
       | .error e => (.error e,
           ⟨inv.commands.set i (nm, (inst.execute w).1), inv.history⟩, w)) := by
  unfold CommandInvoker.execute_command
  rw [hf]
  dsimp only
  cases hE : (inst.execute w).2 with
  | ok br => rfl
  | error e => rfl

theorem undo_last_command_found (inv : CommandInvoker) (w : World) (i : Nat)
    (rest : List Nat) (p : String × CmdInstance)
    (hh : inv.history = i :: rest) (hc : inv.commands[i]? = some p) :
    inv.undo_last_command w =
      (match p.2.undo w with
       | .ok br => (.ok br.1, ⟨inv.commands, rest⟩, br.2)
       | .error e => (.error e, ⟨inv.commands, rest⟩, w)) := by
  unfold CommandInvoker.undo_last_command
  rw [hh]
  dsimp only
  rw [hc]
  dsimp only
  cases hU : p.2.undo w with
  | ok br => rfl
  | error e => rfl

/-- C8: executing a registered command appends it to history exactly when
its forward action reports success — a forward returning failure or
raising leaves history unchanged (and a raise leaves the world unchanged);
`undo_last` pops the most recent history entry and invokes that command's
inverse; executing then undoing a start-production command on a line with
assembly robots and a strategy succeeds and restores the line's status to
the snapshot taken at execution time. -/
theorem command_history_semantics
    (inv : CommandInvoker) (w w' : World) (nm n : String) (i : Nat) (rest : List Nat)
    (inst : CmdInstance) (b : Bool) (e : String) :
    (findCommand inv.commands nm = some (i, inst) → (inst.execute w).2 = .ok (b, w') →
      (inv.execute_command w nm).1 = .ok b ∧
      (inv.execute_command w nm).2.1.history = (if b then i :: inv.history else inv.history) ∧
      (inv.execute_command w nm).2.2 = w') ∧
    (findCommand inv.commands nm = some (i, inst) → (inst.execute w).2 = .error e →
      (inv.execute_command w nm).1 = .error e ∧
      (inv.execute_command w nm).2.1.history = inv.history ∧
      (inv.execute_command w nm).2.2 = w) ∧
    (inv.history = i :: rest → inv.commands[i]? = some (n, inst) →
      (inst.undo w = .ok (b, w') →
        inv.undo_last_command w = (.ok b, ⟨inv.commands, rest⟩, w')) ∧
      (inst.undo w = .error e →
        inv.undo_last_command w = (.error e, ⟨inv.commands, rest⟩, w))) ∧
    (w.line.assembly_robots ≠ [] → w.line.production_strategy ≠ none →
      ((startOnlyInvoker nm).execute_command w nm).1 = .ok true ∧
      ((startOnlyInvoker nm).execute_command w nm).2.1.history = [0] ∧
      ((((startOnlyInvoker nm).execute_command w nm).2.1).undo_last_command
          (((startOnlyInvoker nm).execute_command w nm).2.2)).1 = .ok true ∧
      ((((startOnlyInvoker nm).execute_command w nm).2.1).undo_last_command
          (((startOnlyInvoker nm).execute_command w nm).2.2)).2.1.history = [] ∧
      ((((startOnlyInvoker nm).execute_command w nm).2.1).undo_last_command
          (((startOnlyInvoker nm).execute_command w nm).2.2)).2.2.line.status
        = w.line.status) := by
  refine ⟨?_, ?_, ?_, ?_⟩
  · intro hf he
    rw [execute_command_found inv w nm i inst hf]
    simp [he]
  · intro hf he
    rw [execute_command_found inv w nm i inst hf]
    simp [he]
  · intro hh hc
    constructor
    · intro hu
      rw [undo_last_command_found inv w i rest (n, inst) hh hc]
      simp only [hu]
    · intro hu
      rw [undo_last_command_found inv w i rest (n, inst) hh hc]
      simp only [hu]
  · intro ha hs
    have hstart : w.line.start = .ok (true,
        { w.line with
          assembly_robots := w.line.assembly_robots.map Machine.start_operation,
          packaging_robots := w.line.packaging_robots.map Machine.start_operation,
          quality_control_bots := w.line.quality_control_bots.map Machine.start_operation,
          status := some "running" }) := by
      unfold ProductionLine.start
      rw [if_neg ha, if_neg hs]
    have hexec0 : (⟨.startProduction, none, none⟩ : CmdInstance).execute w =
        (⟨.startProduction, w.line.status, none⟩,
         .ok (true, { w with line :=
           { w.line with
             assembly_robots := w.line.assembly_robots.map Machine.start_operation,
             packaging_robots := w.line.packaging_robots.map Machine.start_operation,
             quality_control_bots := w.line.quality_control_bots.map Machine.start_operation,
             status := some "running" } })) := by
      unfold CmdInstance.execute
      dsimp only
      rw [hstart]
    have hf : findCommand (startOnlyInvoker nm).commands nm =
        some (0, ⟨.startProduction, none, none⟩) := by
      simp [startOnlyInvoker, findCommand]
    have hEx : (startOnlyInvoker nm).execute_command w nm =
        (.ok true,
         ⟨[(nm, ⟨.startProduction, w.line.status, none⟩)], [0]⟩,
         { w with line :=
           { w.line with
             assembly_robots := w.line.assembly_robots.map Machine.start_operation,
             packaging_robots := w.line.packaging_robots.map Machine.start_operation,
             quality_control_bots := w.line.quality_control_bots.map Machine.start_operation,
             status := some "running" } }) := by
      rw [execute_command_found _ w nm 0 _ hf]
      simp only [hexec0]
      rfl
    rw [hEx]
    refine ⟨rfl, rfl, ?_, ?_, ?_⟩ <;>
      · rw [undo_last_command_found
            ⟨[(nm, ⟨.startProduction, w.line.status, none⟩)], [0]⟩ _ 0 [] _ rfl rfl]
        rfl

/-- An idle single-robot line with a strategy, for command witnesses. -/
def lineIdleW : ProductionLine :=
  { name := "L", assembly_robots := [mIdleW], packaging_robots := [],
    quality_control_bots := [], production_strategy := some (.mass 10),
    safety_protocol := none, status := some "idle" }

/-- The world the command witnesses run in. -/
def wIdleW : World := ⟨lineIdleW, ⟨some (.mass 10)⟩⟩

/-- C8 witness: executing the start command on an idle line succeeds and is
recorded; undoing pops it and restores status idle. -/
theorem command_history_semantics_witness :
    ((startOnlyInvoker "start").execute_command wIdleW "start").1 = .ok true ∧
    ((startOnlyInvoker "start").execute_command wIdleW "start").2.1.history = [0] ∧
    ((((startOnlyInvoker "start").execute_command wIdleW "start").2.1).undo_last_command
        (((startOnlyInvoker "start").execute_command wIdleW "start").2.2)).1 = .ok true ∧
    ((((startOnlyInvoker "start").execute_command wIdleW "start").2.1).undo_last_command
        (((startOnlyInvoker "start").execute_command wIdleW "start").2.2)).2.1.history = [] ∧
    ((((startOnlyInvoker "start").execute_command wIdleW "start").2.1).undo_last_command
        (((startOnlyInvoker "start").execute_command wIdleW "start").2.2)).2.2.line.status
      = some "idle" := by
  obtain ⟨-, -, -, h4⟩ := command_history_semantics (startOnlyInvoker "start") wIdleW wIdleW
    "start" "start" 0 [] ⟨.startProduction, none, none⟩ true "e"
  obtain ⟨a1, a2, a3, a4, a5⟩ := h4 (by decide) (by decide)
  exact ⟨a1, a2, a3, a4, a5⟩

theorem findCommand_eq_none (l : List (String × CmdInstance)) (nm : String)
    (h : ∀ p ∈ l, p.1 ≠ nm) : findCommand l nm = none := by
  induction l with
  | nil => rfl
  | cons hd t ih =>
      obtain ⟨n, c⟩ := hd
      have hn : n ≠ nm := h (n, c) (List.mem_cons_self _ _)
      have ht : ∀ p ∈ t, p.1 ≠ nm := fun p hp => h p (List.mem_cons_of_mem _ hp)
      simp [findCommand, hn, ih ht]

/-- C10: `undo_last` on an empty history returns failure and changes
nothing (no inverse runs); `execute` with an unregistered name returns
failure and leaves the history, the registered commands, and the world
unchanged. -/
theorem invoker_edge_cases (inv : CommandInvoker) (w : World) (nm : String) :
    (inv.history = [] → inv.undo_last_command w = (.ok false, inv, w)) ∧
    ((∀ p ∈ inv.commands, p.1 ≠ nm) → inv.execute_command w nm = (.ok false, inv, w)) := by
  constructor
  · intro hh
    unfold CommandInvoker.undo_last_command
    rw [hh]
  · intro hall
    unfold CommandInvoker.execute_command
    rw [findCommand_eq_none inv.commands nm hall]

/-- C10 witness: a fresh invoker refuses undo, and an unknown name is a
no-op failure. -/
theorem invoker_edge_cases_witness :
    (startOnlyInvoker "start").undo_last_command wIdleW =
      (.ok false, startOnlyInvoker "start", wIdleW) ∧
    (startOnlyInvoker "start").execute_command wIdleW "missing" =
      (.ok false, startOnlyInvoker "start", wIdleW) := by
  obtain ⟨h1, h2⟩ := invoker_edge_cases (startOnlyInvoker "start") wIdleW "missing"
  exact ⟨h1 rfl, h2 (by decide)⟩

end Synthcorp
